import Mathlib

/-!
Shallow embedding of the `canup` CAN-bootloader host tool
(`bootloader.py`, `boards.py`).  CAN traffic is modelled explicitly: a
`Frame` is an arbitration id plus a payload, and the bus's receive side is
a schedule `List RecvEvent`, where each event is the outcome of one
`bus.recv(timeout=1)` call: the time that call consumed and the frame it
returned (`none` = that receive call timed out).  Every operation of the
`Bootloader` class becomes a pure function from its inputs and the receive
schedule to a record of its outcome, the frames it sent, the progress
reports it issued, and the unconsumed tail of the schedule.
-/

namespace Canup

/-- A CAN frame: arbitration id and data payload (list of bytes). -/
structure Frame where
  arbitration_id : Nat
  data : List Nat
deriving DecidableEq, Repr

/-- Outcome of one `bus.recv(timeout=1)` call: the time units that call
consumed, and the frame it returned (`none` when it timed out). -/
abbrev RecvEvent := Nat × Option Frame

/-- A progress report issued through `ui_callback`: label, total, completed. -/
abbrev Report := String × Nat × Nat

-- CAN command message IDs (bootloader.py).
def ERASE_SECTOR_CAN_ID : Nat := 1000
def PROGRAM_CAN_ID : Nat := 1001
def VERIFY_CAN_ID : Nat := 1002
def LOST_PACKET_CAN_ID : Nat := 1003

-- CAN reply message IDs.
def ERASE_SECTOR_COMPLETE_CAN_ID : Nat := 1010
def APP_VALIDITY_CAN_ID : Nat := 1011

-- Verify response options.
def BOOT_STATUS_APP_VALID : Nat := 0
def BOOT_STATUS_APP_INVALID : Nat := 1
def BOOT_STATUS_NO_APP : Nat := 2

-- The minimum amount of data the microcontroller can program at a time.
def MIN_PROG_SIZE_BYTES : Nat := 32

/-- Embeds `boards.FlashSector`. -/
structure FlashSector where
  id : Nat
  base_address : Nat
  size : Nat
  write_protect : Bool := false
deriving DecidableEq, Repr

/-- Derived `FlashSector.max_address` property: `base_address + size - 1`. -/
def FlashSector.max_address (s : FlashSector) : Nat :=
  s.base_address + s.size - 1

/-- Embeds `boards.Microcontroller`. -/
structure Microcontroller where
  name : String
  flash_sectors : List FlashSector
deriving DecidableEq, Repr

/-- Embeds `boards.Board` (the image path is irrelevant to the protocol engine and
is omitted). -/
structure Board where
  name : String
  start_update_can_id : Nat
  update_ack_can_id : Nat
  mcu : Microcontroller
deriving DecidableEq, Repr

/-- The intelhex image object as the bootloader uses it: `minaddr()`,
`maxaddr()`, and byte-at-address indexing. -/
structure IntelHex where
  minaddr : Nat
  maxaddr : Nat
  byteAt : Nat → Nat

/-- Embeds `Bootloader.size_bytes`:
`int(math.ceil((ih.maxaddr() - ih.minaddr()) / 32) * 32)`.
The Python float division is exact for spans below `2 ^ 47`, so the exact
ceiling `(span + 31) / 32 * 32` over `Nat` is the faithful embedding. -/
def size_bytes (ih : IntelHex) : Nat :=
  (ih.maxaddr - ih.minaddr + (MIN_PROG_SIZE_BYTES - 1)) / MIN_PROG_SIZE_BYTES
    * MIN_PROG_SIZE_BYTES

/-- Result of `Bootloader._await_can_msg`: the accepted message
(`return rx_msg`), the validator-aborted `return False`, or the
loop-exhausted `return None`. -/
inductive AwaitResult where
  | accepted (msg : Frame)
  | rejected
  | timedOut
deriving DecidableEq, Repr

/-- Embeds `Bootloader._await_can_msg`, threaded over the receive schedule with an
explicit elapsed-time accumulator.  The Python loop checks
`time.time() - start < timeout` before each `recv`; each event's first
component is the time that receive call consumed.  Once the schedule is
empty every further receive returns `None` after its 1-unit sub-timeout,
so the loop can only tick up to the timeout and return `None`; that tail
is collapsed to an immediate `timedOut`. -/
def await_can_msg_go (validator : Frame → Option Bool) (timeout : Nat) :
    List RecvEvent → Nat → AwaitResult × List RecvEvent
  | [], _ => (.timedOut, [])
  | (dt, o) :: rest, elapsed =>
    if elapsed < timeout then
      match o with
      | none => await_can_msg_go validator timeout rest (elapsed + dt)
      | some f =>
        match validator f with
        | some true => (.accepted f, rest)
        | some false => (.rejected, rest)
        | none => await_can_msg_go validator timeout rest (elapsed + dt)
    else (.timedOut, (dt, o) :: rest)

/-- Embeds `Bootloader._await_can_msg` from the start of its wait (elapsed time 0). -/
def await_can_msg (validator : Frame → Option Bool) (timeout : Nat)
    (events : List RecvEvent) : AwaitResult × List RecvEvent :=
  await_can_msg_go validator timeout events 0

/-- The validator used by `start_update`: accept the update-ack id,
otherwise keep waiting (`None`). -/
def start_update_validator (board : Board) (msg : Frame) : Option Bool :=
  if msg.arbitration_id = board.update_ack_can_id then some true else none

/-- Output of `Bootloader.start_update`. -/
structure StartOut where
  ok : Bool
  sent : List Frame
  rest : List RecvEvent
deriving Repr

/-- Embeds `Bootloader.start_update`: send the start-update frame, then await the
ack; the Python `is not None` test means any non-`None` result (accepted
or the unreachable `False`) counts as success. -/
def start_update (board : Board) (timeout : Nat) (events : List RecvEvent) :
    StartOut :=
  let r := await_can_msg (start_update_validator board) timeout events
  { ok := match r.1 with
      | .timedOut => false
      | _ => true
    sent := [⟨board.start_update_can_id, []⟩]
    rest := r.2 }

/-- The validator used by `erase_sectors`: accept the erase-complete id. -/
def erase_validator (msg : Frame) : Option Bool :=
  if msg.arbitration_id = ERASE_SECTOR_COMPLETE_CAN_ID then some true else none

/-- The erase-command frame for a sector: 1-byte payload holding the id. -/
def erase_frame (s : FlashSector) : Frame :=
  ⟨ERASE_SECTOR_CAN_ID, [s.id]⟩

/-- How `erase_sectors` ends: normally with its boolean result, or by
raising `RuntimeError("Attempted to write to a readonly memory sector!")`. -/
inductive EraseOutcome where
  | ok (success : Bool)
  | raisedProtect
deriving DecidableEq, Repr

/-- Output of `Bootloader.erase_sectors`. -/
structure EraseOut where
  outcome : EraseOutcome
  sent : List Frame
  reports : List Report
  rest : List RecvEvent
deriving Repr

/-- The per-sector loop of `Bootloader.erase_sectors`: report progress,
fail on a write-protected sector before sending its frame, otherwise send
the erase command and await the erase-complete ack (giving up on timeout). -/
def erase_sectors_go (timeout erase_size : Nat) :
    List FlashSector → Nat → List RecvEvent → EraseOut
  | [], _, events =>
    { outcome := .ok true
      sent := []
      reports := [("Erasing FLASH sectors", erase_size, erase_size)]
      rest := events }
  | sector :: rest, erase_progress, events =>
    let rpt : Report := ("Erasing FLASH sectors", erase_size, erase_progress)
    if sector.write_protect then
      { outcome := .raisedProtect
        sent := []
        reports := [rpt]
        rest := events }
    else
      match await_can_msg erase_validator timeout events with
      | (.accepted _, evRest) =>
        let out := erase_sectors_go timeout erase_size rest
          (erase_progress + sector.size) evRest
        { out with
          sent := erase_frame sector :: out.sent
          reports := rpt :: out.reports }
      | (_, evRest) =>
        { outcome := .ok false
          sent := [erase_frame sector]
          reports := [rpt]
          rest := evRest }

/-- Embeds `Bootloader.erase_sectors` (with the `ui_callback` present, as in both
drivers). -/
def erase_sectors (timeout : Nat) (sectors : List FlashSector)
    (events : List RecvEvent) : EraseOut :=
  erase_sectors_go timeout ((sectors.map (fun s => s.size)).sum) sectors 0 events

/-- One 8-byte program-command frame:
`data = [ih[address + i] for i in range(0, 8)]`. -/
def program_chunk (ih : IntelHex) (address : Nat) : Frame :=
  ⟨PROGRAM_CAN_ID, (List.range 8).map (fun i => ih.byteAt (address + i))⟩

/-- Number of iterations of `range(minaddr, minaddr + size_bytes, 8)`. -/
def num_chunks (ih : IntelHex) : Nat :=
  (size_bytes ih + 7) / 8

/-- The whole sequence of program-command frames sent by `Bootloader.program`. -/
def program_frames (ih : IntelHex) : List Frame :=
  (List.range (num_chunks ih)).map (fun k => program_chunk ih (ih.minaddr + 8 * k))

/-- The 16-bit address carried by a lost-packet report:
`(msg.data[1] << 8) | msg.data[0]` (low byte first). -/
def lost_address (msg : Frame) : Nat :=
  (msg.data.getD 1 0) <<< 8 ||| msg.data.getD 0 0

/-- The resend frame for a lost chunk: the 8 image bytes starting at the
reported address, on the lost-packet id. -/
def lost_frame (ih : IntelHex) (a : Nat) : Frame :=
  ⟨LOST_PACKET_CAN_ID, (List.range 8).map (fun i => ih.byteAt (a + i))⟩

/-- Embeds `Bootloader.resend_lost_packets`: receive with a 1-unit sub-timeout;
a frame on the lost-packet id triggers a resend and another iteration;
anything else (a timed-out receive, or a frame with any other id) hits the
`else: break`.  Returns the resent frames and the unconsumed schedule. -/
def resend_lost_packets (ih : IntelHex) :
    List RecvEvent → List Frame × List RecvEvent
  | [] => ([], [])
  | (_, none) :: rest => ([], rest)
  | (_, some msg) :: rest =>
    if msg.arbitration_id = LOST_PACKET_CAN_ID then
      let r := resend_lost_packets ih rest
      (lost_frame ih (lost_address msg) :: r.1, r.2)
    else ([], rest)

/-- The lost-packet recovery loop as the spec words it (for comparison with
the code): terminate only when a receive attempt times out with no frame;
a received frame that is not a lost-packet report is discarded and waiting
continues. -/
def resend_lost_packets_spec (ih : IntelHex) :
    List RecvEvent → List Frame × List RecvEvent
  | [] => ([], [])
  | (_, none) :: rest => ([], rest)
  | (_, some msg) :: rest =>
    if msg.arbitration_id = LOST_PACKET_CAN_ID then
      let r := resend_lost_packets_spec ih rest
      (lost_frame ih (lost_address msg) :: r.1, r.2)
    else
      resend_lost_packets_spec ih rest

/-- Output of `Bootloader.program`. -/
structure ProgramOut where
  sent : List Frame
  reports : List Report
  rest : List RecvEvent
deriving Repr

/-- Embeds `Bootloader.program`: send every chunk with no handshake (reporting
progress every 128 chunks and once at the end), then run
`resend_lost_packets` unconditionally. -/
def program (ih : IntelHex) (events : List RecvEvent) : ProgramOut :=
  let r := resend_lost_packets ih events
  { sent := program_frames ih ++ r.1
    reports :=
      ((List.range (num_chunks ih)).filter (fun i => i % 128 == 0)).map
        (fun i => ("Programming data", size_bytes ih, i * 8))
      ++ [("Programming data", size_bytes ih, size_bytes ih)]
    rest := r.2 }

/-- The validator used by `status`: accept the app-validity id. -/
def status_validator (msg : Frame) : Option Bool :=
  if msg.arbitration_id = APP_VALIDITY_CAN_ID then some true else none

/-- Output of `Bootloader.status`. -/
structure StatusOut where
  result : Option Nat
  sent : List Frame
  rest : List RecvEvent
deriving Repr

/-- The default of the `timeout` parameter of `_await_can_msg`. -/
def AWAIT_TIMEOUT_DEFAULT : Nat := 5

/-- Embeds `Bootloader.status`: send the verify frame and await the first frame on
the app-validity id, returning its first payload byte.  The call
`self._await_can_msg(_validator)` leaves the timeout at its default of 5,
ignoring the session timeout (kept here as the unused `_timeout`). -/
def status (_timeout : Nat) (events : List RecvEvent) : StatusOut :=
  let r := await_can_msg status_validator AWAIT_TIMEOUT_DEFAULT events
  { result := match r.1 with
      | .accepted msg => some (msg.data.getD 0 0)
      | _ => none
    sent := [⟨VERIFY_CAN_ID, []⟩]
    rest := r.2 }

/-- The `_intersect` helper inside `Bootloader.update`:
`a_max >= b_min and b_max >= a_min`. -/
def intersect (a_min a_max b_min b_max : Nat) : Bool :=
  decide (b_min ≤ a_max) && decide (a_min ≤ b_max)

/-- The sector selection of `Bootloader.update`: keep each sector whose
`[base_address, max_address]` interval intersects the image range
`[a_min, a_max)`. -/
def app_flash_sectors (sectors : List FlashSector) (a_min a_max : Nat) :
    List FlashSector :=
  sectors.filter (fun s => intersect a_min a_max s.base_address s.max_address)

/-- The `RuntimeError`s `Bootloader.update` can raise, plus the propagated
protect error from `erase_sectors`. -/
inductive UpdateError where
  | startNoResponse
  | protectViolation
  | eraseNoResponse
  | integrityFail
  | verifyNoResponse
deriving DecidableEq, Repr

/-- Output of `Bootloader.update` (`result = none` means success). -/
structure UpdateOut where
  result : Option UpdateError
  sent : List Frame
  reports : List Report
  rest : List RecvEvent
deriving Repr

/-- Embeds `Bootloader.update`: handshake, select the sectors intersecting the
image range `[minaddr, minaddr + size_bytes)`, erase them, program, then
verify expecting `BOOT_STATUS_APP_VALID`. -/
def update (board : Board) (ih : IntelHex) (timeout : Nat)
    (events : List RecvEvent) : UpdateOut :=
  let s := start_update board timeout events
  if !s.ok then
    { result := some .startNoResponse
      sent := s.sent
      reports := []
      rest := s.rest }
  else
    let sel := app_flash_sectors board.mcu.flash_sectors ih.minaddr
      (ih.minaddr + size_bytes ih)
    let e := erase_sectors timeout sel s.rest
    match e.outcome with
    | .raisedProtect =>
      { result := some .protectViolation
        sent := s.sent ++ e.sent
        reports := e.reports
        rest := e.rest }
    | .ok false =>
      { result := some .eraseNoResponse
        sent := s.sent ++ e.sent
        reports := e.reports
        rest := e.rest }
    | .ok true =>
      let p := program ih e.rest
      let st := status timeout p.rest
      let preReports := e.reports ++ p.reports
        ++ [("Verifying programming", size_bytes ih, 0)]
      let sentAll := s.sent ++ e.sent ++ p.sent ++ st.sent
      match st.result with
      | none =>
        { result := some .verifyNoResponse
          sent := sentAll
          reports := preReports
          rest := st.rest }
      | some b =>
        if b ≠ BOOT_STATUS_APP_VALID then
          { result := some .integrityFail
            sent := sentAll
            reports := preReports
            rest := st.rest }
        else
          { result := none
            sent := sentAll
            reports := preReports
              ++ [("Verifying programming", size_bytes ih, size_bytes ih)]
            rest := st.rest }

/-- The `RuntimeError`s `Bootloader.erase` can raise. -/
inductive EraseOpError where
  | startNoResponse
  | protectViolation
  | eraseNoResponse
  | verifyFail
  | verifyNoResponse
deriving DecidableEq, Repr

/-- Output of `Bootloader.erase` (`result = none` means success). -/
structure EraseOpOut where
  result : Option EraseOpError
  sent : List Frame
  reports : List Report
  rest : List RecvEvent
deriving Repr

/-- Embeds `Bootloader.erase`: handshake, erase every non-write-protected sector,
then verify expecting `BOOT_STATUS_NO_APP`. -/
def erase (board : Board) (timeout : Nat) (events : List RecvEvent) :
    EraseOpOut :=
  let s := start_update board timeout events
  if !s.ok then
    { result := some .startNoResponse
      sent := s.sent
      reports := []
      rest := s.rest }
  else
    let writeable := board.mcu.flash_sectors.filter (fun sec => !sec.write_protect)
    let erase_size := (writeable.map (fun sec => sec.size)).sum
    let e := erase_sectors timeout writeable s.rest
    match e.outcome with
    | .raisedProtect =>
      { result := some .protectViolation
        sent := s.sent ++ e.sent
        reports := e.reports
        rest := e.rest }
    | .ok false =>
      { result := some .eraseNoResponse
        sent := s.sent ++ e.sent
        reports := e.reports
        rest := e.rest }
    | .ok true =>
      let st := status timeout e.rest
      let preReports := e.reports ++ [("Verifying erase", erase_size, 0)]
      let sentAll := s.sent ++ e.sent ++ st.sent
      match st.result with
      | none =>
        { result := some .verifyNoResponse
          sent := sentAll
          reports := preReports
          rest := st.rest }
      | some b =>
        if b ≠ BOOT_STATUS_NO_APP then
          { result := some .verifyFail
            sent := sentAll
            reports := preReports
            rest := st.rest }
        else
          { result := none
            sent := sentAll
            reports := preReports ++ [("Verifying erase", erase_size, erase_size)]
            rest := st.rest }

/-! Concrete fixtures used by several witnesses and counterexamples. -/

/-- Image fixture: addresses 0 to 63, each byte holding its address. -/
def ih0 : IntelHex := ⟨0, 64, fun a => a % 256⟩

/-- An empty image fixture (no sector is touched, no chunk is sent). -/
def ihE : IntelHex := ⟨0, 0, fun _ => 0⟩

/-- Board fixture with no flash sectors. -/
def board0 : Board := ⟨"VC", 1200, 1201, ⟨"M", []⟩⟩

/-- Board fixture with a single open sector covering addresses 0 to 63. -/
def board1 : Board := ⟨"BMS", 1210, 1211, ⟨"M", [⟨5, 0, 64, false⟩]⟩⟩

/-- A lost-packet report frame for address 5 (little-endian payload). -/
def report5 : Frame := ⟨LOST_PACKET_CAN_ID, [5, 0]⟩

/-- The erase-complete acknowledgment frame. -/
def erase_ack : Frame := ⟨ERASE_SECTOR_COMPLETE_CAN_ID, []⟩

/-! Theorems for the claims. -/

/-- C1 counterexample: with sectors (id 0, base 0x1000, size 0x1000,
write-protected) and (id 1, base 0x2000, size 0x1000, open) and image
range `[0x1FFF, 0x2010)`, the selection is NOT only sector 1: address
0x1FFF is the last address of sector 0, so sector 0 intersects the range
and is selected as well. -/
theorem app_flash_sectors_example_not_only_sector1 :
    app_flash_sectors [⟨0, 0x1000, 0x1000, true⟩, ⟨1, 0x2000, 0x1000, false⟩]
      0x1FFF 0x2010 ≠ [⟨1, 0x2000, 0x1000, false⟩] := by
  decide

/-- C1 (amended): the update operation's sector selection keeps exactly
the sectors whose inclusive `[base_address, max_address]` interval
intersects the image range under the rule
`image_max ≥ sector_min AND sector_max ≥ image_min`; on the example
sectors and image range `[0x1FFF, 0x2010)`, sectors 0 and 1 are both
selected. -/
theorem app_flash_sectors_intersection_rule :
    (∀ (sectors : List FlashSector) (a_min a_max : Nat) (s : FlashSector),
      s ∈ app_flash_sectors sectors a_min a_max ↔
        s ∈ sectors ∧ s.base_address ≤ a_max ∧ a_min ≤ s.max_address) ∧
    app_flash_sectors [⟨0, 0x1000, 0x1000, true⟩, ⟨1, 0x2000, 0x1000, false⟩]
      0x1FFF 0x2010 =
      [⟨0, 0x1000, 0x1000, true⟩, ⟨1, 0x2000, 0x1000, false⟩] := by
  constructor
  · intro sectors a_min a_max s
    simp [app_flash_sectors, List.mem_filter, intersect, and_assoc]
  · decide

/-- C2: `size_bytes` rounds the raw byte span `maxaddr - minaddr` up to
the next multiple of the 32-byte minimum programming unit, never down:
a span of 33 gives 64, a span of exactly 32 gives 32, and for every image
the result is a multiple of 32 that is at least the raw span (and less
than one full unit above it). -/
theorem size_bytes_rounds_up :
    size_bytes ⟨0, 33, fun _ => 0⟩ = 64 ∧
    size_bytes ⟨0, 32, fun _ => 0⟩ = 32 ∧
    ∀ ih : IntelHex,
      ih.maxaddr - ih.minaddr ≤ size_bytes ih ∧
      size_bytes ih % MIN_PROG_SIZE_BYTES = 0 ∧
      size_bytes ih < ih.maxaddr - ih.minaddr + MIN_PROG_SIZE_BYTES := by
  refine ⟨rfl, rfl, fun ih => ?_⟩
  unfold size_bytes MIN_PROG_SIZE_BYTES
  omega

/-- C9: `status` always waits with the fixed default timeout of 5 time
units, whatever the session timeout is: its result is independent of the
configured timeout, and concretely a reply arriving after 7 time units is
missed by `status` even in a session with timeout 10, while the phases
that do pass the session timeout (handshake, erase) see a reply arriving
after 7 time units when the session timeout is 10. -/
theorem status_uses_default_timeout :
    AWAIT_TIMEOUT_DEFAULT = 5 ∧
    (∀ (t1 t2 : Nat) (events : List RecvEvent), status t1 events = status t2 events) ∧
    (status 10 [(7, none), (0, some ⟨APP_VALIDITY_CAN_ID, [BOOT_STATUS_APP_VALID]⟩)]).result
      = none ∧
    (start_update board1 10 [(7, none), (0, some ⟨1211, []⟩)]).ok = true ∧
    (erase_sectors 10 [⟨5, 0, 64, false⟩] [(7, none), (0, some erase_ack)]).outcome
      = .ok true := by
  refine ⟨rfl, fun t1 t2 events => rfl, by decide, by decide, by decide⟩

/-- C10: on an empty sector list, `erase_sectors` sends no frames, reports
progress exactly once with total 0 and completed 0, consumes no receive
events, and returns True. -/
theorem erase_sectors_empty (timeout : Nat) (events : List RecvEvent) :
    erase_sectors timeout [] events =
      { outcome := .ok true
        sent := []
        reports := [("Erasing FLASH sectors", 0, 0)]
        rest := events } := rfl

/-- C3 counterexample: a received frame that is not a lost-packet report
DOES terminate the recovery loop.  On a schedule delivering a foreign
frame (id `VERIFY_CAN_ID`) followed by a lost-packet report, the code's
loop breaks at the foreign frame, resending nothing and leaving the report
unconsumed, whereas the behavior the claim describes (discard foreign
frames and keep waiting) would resend the reported chunk. -/
theorem resend_lost_packets_breaks_on_foreign_frame :
    resend_lost_packets ih0 [(0, some ⟨VERIFY_CAN_ID, []⟩), (0, some report5)]
      = ([], [(0, some report5)]) ∧
    resend_lost_packets_spec ih0 [(0, some ⟨VERIFY_CAN_ID, []⟩), (0, some report5)]
      = ([lost_frame ih0 5], []) ∧
    resend_lost_packets ih0 [(0, some ⟨VERIFY_CAN_ID, []⟩), (0, some report5)]
      ≠ resend_lost_packets_spec ih0 [(0, some ⟨VERIFY_CAN_ID, []⟩), (0, some report5)] := by
  refine ⟨by decide, by decide, by decide⟩

/-- C3 (amended): each iteration of `resend_lost_packets` terminates the
loop as soon as a receive attempt either times out with no frame or
returns a frame whose identifier is not the lost-packet identifier; only
a lost-packet report keeps the loop going (resending the reported chunk). -/
theorem resend_lost_packets_step (ih : IntelHex) (dt : Nat) (o : Option Frame)
    (rest : List RecvEvent) :
    resend_lost_packets ih ((dt, o) :: rest) =
      match o with
      | none => ([], rest)
      | some msg =>
        if msg.arbitration_id = LOST_PACKET_CAN_ID then
          (lost_frame ih (lost_address msg) :: (resend_lost_packets ih rest).1,
           (resend_lost_packets ih rest).2)
        else ([], rest) := by
  cases o with
  | none => rfl
  | some msg =>
    by_cases h : msg.arbitration_id = LOST_PACKET_CAN_ID <;>
      simp [resend_lost_packets, h]

/-- C4 counterexample: two reports of the same address are answered with
TWO resend frames, not one: the loop resends once per received report,
not once per distinct reported address (the reported addresses dedup to
the single address 5 while two frames are sent). -/
theorem resend_lost_packets_duplicate_address :
    (resend_lost_packets ih0 [(0, some report5), (0, some report5), (1, none)]).1
      = [lost_frame ih0 5, lost_frame ih0 5] ∧
    [lost_address report5, lost_address report5].dedup = [5] := by
  refine ⟨by decide, by decide⟩

/-- C4 (amended): for every sequence of lost-packet report frames received
before the terminating timeout, the loop sends exactly one resend frame
per received report, in order (a repeated address is resent each time);
each report's address is decoded little-endian (low byte then high byte)
and the resent payload is the 8 image bytes starting at that address,
sent on the lost-packet identifier. -/
theorem resend_lost_packets_one_per_report (ih : IntelHex) (reports : List Frame)
    (dt : Nat) (rest : List RecvEvent)
    (h : ∀ f ∈ reports, f.arbitration_id = LOST_PACKET_CAN_ID) :
    resend_lost_packets ih
        (reports.map (fun f => ((0 : Nat), some f)) ++ (dt, none) :: rest) =
      (reports.map (fun f => lost_frame ih (lost_address f)), rest) := by
  induction reports with
  | nil => rfl
  | cons f fs ihrec =>
    have hf : f.arbitration_id = LOST_PACKET_CAN_ID := h f (by simp)
    have hrec := ihrec (fun g hg => h g (by simp [hg]))
    simp [resend_lost_packets, hf, hrec]

/-- C4 witness: reports for addresses 5 and 258 (little-endian payloads
`[5, 0]` and `[2, 1]`) followed by a timed-out receive produce exactly the
two corresponding resend frames. -/
theorem resend_lost_packets_one_per_report_witness :
    resend_lost_packets ih0
        (([report5, ⟨LOST_PACKET_CAN_ID, [2, 1]⟩] : List Frame).map
            (fun f => ((0 : Nat), some f))
          ++ (1, none) :: []) =
      (([report5, ⟨LOST_PACKET_CAN_ID, [2, 1]⟩] : List Frame).map
          (fun f => lost_frame ih0 (lost_address f)), []) :=
  resend_lost_packets_one_per_report ih0 [report5, ⟨LOST_PACKET_CAN_ID, [2, 1]⟩]
    1 [] (by decide)

/-- An event a validator leaves undecided: a timed-out receive, or a frame
on which the validator returns `None` (keep waiting). -/
def skips (v : Frame → Option Bool) (e : RecvEvent) : Bool :=
  match e.2 with
  | none => true
  | some g => v g == none

/-- Total time consumed by a list of receive events. -/
def elapsed_of (events : List RecvEvent) : Nat :=
  (events.map Prod.fst).sum

theorem skips_some {v : Frame → Option Bool} {dt : Nat} {g : Frame}
    (h : skips v (dt, some g) = true) : v g = none := by
  simpa [skips] using h

/-- The wait loop runs through a prefix of undecided events, accumulating
their elapsed time, as long as the timeout is not yet reached. -/
theorem await_go_skip (v : Frame → Option Bool) (T : Nat) :
    ∀ (pre : List RecvEvent) (elapsed : Nat) (tail : List RecvEvent),
      (∀ e ∈ pre, skips v e = true) →
      elapsed + elapsed_of pre < T →
      await_can_msg_go v T (pre ++ tail) elapsed =
        await_can_msg_go v T tail (elapsed + elapsed_of pre) := by
  intro pre
  induction pre with
  | nil =>
    intro elapsed tail _ _
    simp [elapsed_of]
  | cons e pre ihrec =>
    intro elapsed tail h hT
    obtain ⟨dt, o⟩ := e
    have hsum : elapsed_of ((dt, o) :: pre) = dt + elapsed_of pre := by
      simp [elapsed_of]
    have hel : elapsed < T := by omega
    have hrec := ihrec (elapsed + dt) tail
      (fun x hx => h x (by simp [hx])) (by omega)
    cases o with
    | none =>
      rw [List.cons_append]
      simp only [await_can_msg_go, if_pos hel]
      rw [hrec, hsum]
      congr 1
      omega
    | some g =>
      have hg : v g = none := skips_some (h (dt, some g) (by simp))
      rw [List.cons_append]
      simp only [await_can_msg_go, if_pos hel, hg]
      rw [hrec, hsum]
      congr 1
      omega

/-- If every event in the schedule is undecided, the wait loop times out. -/
theorem await_go_timeout (v : Frame → Option Bool) (T : Nat) :
    ∀ (events : List RecvEvent) (elapsed : Nat),
      (∀ e ∈ events, skips v e = true) →
      (await_can_msg_go v T events elapsed).1 = .timedOut := by
  intro events
  induction events with
  | nil =>
    intro elapsed _
    simp [await_can_msg_go]
  | cons e rest ihrec =>
    intro elapsed h
    obtain ⟨dt, o⟩ := e
    by_cases hel : elapsed < T
    · cases o with
      | none =>
        simp only [await_can_msg_go, if_pos hel]
        exact ihrec _ (fun x hx => h x (by simp [hx]))
      | some g =>
        have hg : v g = none := skips_some (h (dt, some g) (by simp))
        simp only [await_can_msg_go, if_pos hel, hg]
        exact ihrec _ (fun x hx => h x (by simp [hx]))
    · simp [await_can_msg_go, hel]

/-- C5: the message-wait primitive returns the first frame the validator
accepts (frames it leaves undecided are discarded and waiting continues,
as long as the cumulative elapsed time is below the timeout); a frame the
validator aborts on yields the rejected result; if every event before the
timeout is undecided the result is timed out; and rejected and timed out
are distinct results. -/
theorem await_can_msg_contract :
    (∀ (v : Frame → Option Bool) (T : Nat) (pre : List RecvEvent) (dt : Nat)
        (f : Frame) (rest : List RecvEvent),
      (∀ e ∈ pre, skips v e = true) → elapsed_of pre < T → v f = some true →
      await_can_msg v T (pre ++ (dt, some f) :: rest) = (.accepted f, rest)) ∧
    (∀ (v : Frame → Option Bool) (T : Nat) (pre : List RecvEvent) (dt : Nat)
        (f : Frame) (rest : List RecvEvent),
      (∀ e ∈ pre, skips v e = true) → elapsed_of pre < T → v f = some false →
      await_can_msg v T (pre ++ (dt, some f) :: rest) = (.rejected, rest)) ∧
    (∀ (v : Frame → Option Bool) (T : Nat) (events : List RecvEvent),
      (∀ e ∈ events, skips v e = true) →
      (await_can_msg v T events).1 = .timedOut) ∧
    AwaitResult.rejected ≠ AwaitResult.timedOut := by
  refine ⟨?_, ?_, ?_, by decide⟩
  · intro v T pre dt f rest h hT hv
    unfold await_can_msg
    rw [await_go_skip v T pre 0 _ h (by omega)]
    simp [await_can_msg_go, hT, hv]
  · intro v T pre dt f rest h hT hv
    unfold await_can_msg
    rw [await_go_skip v T pre 0 _ h (by omega)]
    simp [await_can_msg_go, hT, hv]
  · intro v T events h
    exact await_go_timeout v T events 0 h

/-- C5 witness: a validator accepting id 7 on the stream [id 9, id 9,
id 7] returns the id-7 frame and discards the id-9 frames; a validator
aborting on id 8 returns the rejected result; and a stream of only id-9
frames times out. -/
theorem await_can_msg_contract_witness :
    await_can_msg (fun f => if f.arbitration_id = 7 then some true else none) 5
        [(1, some ⟨9, []⟩), (1, some ⟨9, []⟩), (0, some ⟨7, []⟩)] =
      (.accepted ⟨7, []⟩, []) ∧
    await_can_msg
        (fun f => if f.arbitration_id = 7 then some true
          else if f.arbitration_id = 8 then some false else none) 5
        [(1, some ⟨9, []⟩), (0, some ⟨8, []⟩)] =
      (.rejected, []) ∧
    (await_can_msg (fun f => if f.arbitration_id = 7 then some true else none) 5
        [(1, some ⟨9, []⟩), (1, some ⟨9, []⟩)]).1 = .timedOut := by
  refine ⟨?_, ?_, ?_⟩
  · exact await_can_msg_contract.1 _ 5 [(1, some ⟨9, []⟩), (1, some ⟨9, []⟩)] 0
      ⟨7, []⟩ [] (by decide) (by decide) (by decide)
  · exact await_can_msg_contract.2.1 _ 5 [(1, some ⟨9, []⟩)] 0
      ⟨8, []⟩ [] (by decide) (by decide) (by decide)
  · exact await_can_msg_contract.2.2.1 _ 5 [(1, some ⟨9, []⟩), (1, some ⟨9, []⟩)]
      (by decide)

/-- A receive schedule delivering one immediate erase-complete ack is
consumed by one erase wait, which accepts it. -/
theorem await_erase_ack (T : Nat) (hT : 0 < T) (z : List RecvEvent) :
    await_can_msg erase_validator T ((0, some erase_ack) :: z)
      = (.accepted erase_ack, z) := by
  simp [await_can_msg, await_can_msg_go, hT, erase_validator, erase_ack]

/-- Fed one erase-complete ack per leading non-protected sector, the
per-sector loop reaches the first write-protected sector having sent
exactly the erase frames of the sectors before it, and raises there. -/
theorem erase_go_reaches_protected (T es : Nat) (hT : 0 < T)
    (s : FlashSector) (hs : s.write_protect = true) :
    ∀ (pre post : List FlashSector) (progress : Nat) (tail : List RecvEvent),
      (∀ t ∈ pre, t.write_protect = false) →
      (erase_sectors_go T es (pre ++ s :: post) progress
          (pre.map (fun _ => ((0 : Nat), some erase_ack)) ++ tail)).outcome
        = .raisedProtect ∧
      (erase_sectors_go T es (pre ++ s :: post) progress
          (pre.map (fun _ => ((0 : Nat), some erase_ack)) ++ tail)).sent
        = pre.map erase_frame := by
  intro pre
  induction pre with
  | nil =>
    intro post progress tail _
    simp [erase_sectors_go, hs]
  | cons p pre ihrec =>
    intro post progress tail h
    have hp : p.write_protect = false := h p (by simp)
    have hrec := ihrec post (progress + p.size) tail (fun x hx => h x (by simp [hx]))
    simp only [List.cons_append, List.map_cons, erase_sectors_go, hp,
      Bool.false_eq_true, if_false, await_erase_ack T hT]
    simpa using hrec

/-- C8: when `erase_sectors` is given a list whose first write-protected
sector is `s` (and the device acknowledges each earlier sector), the call
raises the protection violation, and the frames sent are exactly those of
the non-protected sectors before `s` — no erase frame is ever sent for
`s` itself. -/
theorem erase_sectors_protect_violation (T : Nat) (pre post : List FlashSector)
    (s : FlashSector) (tail : List RecvEvent) (hT : 0 < T)
    (hs : s.write_protect = true) (hpre : ∀ t ∈ pre, t.write_protect = false) :
    (erase_sectors T (pre ++ s :: post)
        (pre.map (fun _ => ((0 : Nat), some erase_ack)) ++ tail)).outcome
      = .raisedProtect ∧
    (erase_sectors T (pre ++ s :: post)
        (pre.map (fun _ => ((0 : Nat), some erase_ack)) ++ tail)).sent
      = pre.map erase_frame :=
  erase_go_reaches_protected T _ hT s hs pre post 0 tail hpre

/-- C8 witness: an open sector followed by a write-protected one, with the
ack for the first arriving at once: the call raises the protection
violation having sent only the first sector's erase frame. -/
theorem erase_sectors_protect_violation_witness :
    (erase_sectors 5 [⟨5, 100, 50, false⟩, ⟨6, 200, 50, true⟩]
        [(0, some erase_ack)]).outcome = .raisedProtect ∧
    (erase_sectors 5 [⟨5, 100, 50, false⟩, ⟨6, 200, 50, true⟩]
        [(0, some erase_ack)]).sent = [erase_frame ⟨5, 100, 50, false⟩] :=
  erase_sectors_protect_violation 5 [⟨5, 100, 50, false⟩] [] ⟨6, 200, 50, true⟩
    [] (by decide) (by decide) (by decide)

/-- Number of program-command frames in a list of sent frames. -/
def count_program_frames (l : List Frame) : Nat :=
  (l.filter (fun fr => fr.arbitration_id == PROGRAM_CAN_ID)).length

/-- The only frame the handshake sends is the start-update command. -/
theorem start_update_sent (board : Board) (T : Nat) (events : List RecvEvent) :
    (start_update board T events).sent = [⟨board.start_update_can_id, []⟩] := rfl

/-- Every frame `erase_sectors_go` sends carries the erase-command id. -/
theorem erase_go_sent_ids (T es : Nat) :
    ∀ (sectors : List FlashSector) (progress : Nat) (events : List RecvEvent),
      ∀ f ∈ (erase_sectors_go T es sectors progress events).sent,
        f.arbitration_id = ERASE_SECTOR_CAN_ID := by
  intro sectors
  induction sectors with
  | nil =>
    intro progress events f hf
    simp [erase_sectors_go] at hf
  | cons sec rest ihrec =>
    intro progress events f hf
    by_cases hw : sec.write_protect = true
    · simp [erase_sectors_go, hw] at hf
    · rcases hAw : await_can_msg erase_validator T events with ⟨res, evRest⟩
      cases res with
      | accepted m =>
        simp only [erase_sectors_go, hw, Bool.false_eq_true, if_false, hAw,
          List.mem_cons] at hf
        rcases hf with rfl | hf2
        · rfl
        · exact ihrec _ _ f hf2
      | rejected =>
        simp only [erase_sectors_go, hw, Bool.false_eq_true, if_false, hAw,
          List.mem_singleton] at hf
        subst hf
        rfl
      | timedOut =>
        simp only [erase_sectors_go, hw, Bool.false_eq_true, if_false, hAw,
          List.mem_singleton] at hf
        subst hf
        rfl

/-- Every frame `erase_sectors` sends carries the erase-command id. -/
theorem erase_sectors_sent_ids (T : Nat) (sectors : List FlashSector)
    (events : List RecvEvent) :
    ∀ f ∈ (erase_sectors T sectors events).sent,
      f.arbitration_id = ERASE_SECTOR_CAN_ID :=
  erase_go_sent_ids T _ sectors 0 events

/-- C7: the phases of `update` run in order and fail fast.  If the
handshake ack is not observed, `update` fails with the start error having
sent only the start-update frame (no erase, program, or verify frame).
If the handshake succeeds but the erase phase comes back unacknowledged,
`update` fails with the erase error and zero program frames are sent. -/
theorem update_phases_fail_fast :
    (∀ (board : Board) (ih : IntelHex) (T : Nat) (events : List RecvEvent),
      (start_update board T events).ok = false →
      (update board ih T events).result = some .startNoResponse ∧
      (update board ih T events).sent = [⟨board.start_update_can_id, []⟩]) ∧
    (∀ (board : Board) (ih : IntelHex) (T : Nat) (events : List RecvEvent),
      (start_update board T events).ok = true →
      (erase_sectors T
          (app_flash_sectors board.mcu.flash_sectors ih.minaddr
            (ih.minaddr + size_bytes ih))
          (start_update board T events).rest).outcome = .ok false →
      board.start_update_can_id ≠ PROGRAM_CAN_ID →
      (update board ih T events).result = some .eraseNoResponse ∧
      count_program_frames (update board ih T events).sent = 0) := by
  constructor
  · intro board ih T events h
    refine ⟨?_, ?_⟩ <;> simp [update, h, start_update_sent]
  · intro board ih T events h1 h2 h3
    have hsent : (update board ih T events).sent
        = ⟨board.start_update_can_id, []⟩ ::
          (erase_sectors T
            (app_flash_sectors board.mcu.flash_sectors ih.minaddr
              (ih.minaddr + size_bytes ih))
            (start_update board T events).rest).sent := by
      simp [update, h1, h2, start_update_sent]
    refine ⟨by simp [update, h1, h2], ?_⟩
    rw [hsent]
    simp only [count_program_frames, List.length_eq_zero, List.filter_eq_nil_iff]
    intro f hf
    rcases List.mem_cons.mp hf with rfl | hf2
    · simpa using h3
    · have hid := erase_sectors_sent_ids T _ _ f hf2
      simp [hid, ERASE_SECTOR_CAN_ID, PROGRAM_CAN_ID]

/-- C7 witness: with no ack at all, `update` fails at the handshake having
sent only the start frame; with an ack but no erase-complete reply for the
one intersecting sector, `update` fails at the erase phase with zero
program frames sent. -/
theorem update_phases_fail_fast_witness :
    ((update board0 ih0 5 []).result = some .startNoResponse ∧
      (update board0 ih0 5 []).sent = [⟨board0.start_update_can_id, []⟩]) ∧
    ((update board1 ih0 5 [(0, some ⟨1211, []⟩)]).result
        = some .eraseNoResponse ∧
      count_program_frames (update board1 ih0 5 [(0, some ⟨1211, []⟩)]).sent
        = 0) :=
  ⟨update_phases_fail_fast.1 board0 ih0 5 [] (by decide),
   update_phases_fail_fast.2 board1 ih0 5 [(0, some ⟨1211, []⟩)]
     (by decide) (by decide) (by decide)⟩

/-- C6: `status` returns the first payload byte of the first frame
received on the app-validity identifier, or `none` on timeout; `update`
fails with the integrity error exactly when that byte is not
`BOOT_STATUS_APP_VALID`, `erase` fails with the erase-verification error
exactly when that byte is not `BOOT_STATUS_NO_APP`, and in both
operations the no-response case fails with the distinct
device-unresponsive error. -/
theorem status_and_verify_mapping :
    (∀ (t : Nat) (pre : List RecvEvent) (dt : Nat) (f : Frame)
        (rest : List RecvEvent),
      (∀ e ∈ pre, skips status_validator e = true) →
      elapsed_of pre < AWAIT_TIMEOUT_DEFAULT →
      f.arbitration_id = APP_VALIDITY_CAN_ID →
      (status t (pre ++ (dt, some f) :: rest)).result
        = some (f.data.getD 0 0)) ∧
    (∀ (t : Nat) (events : List RecvEvent),
      (∀ e ∈ events, skips status_validator e = true) →
      (status t events).result = none) ∧
    (∀ (board : Board) (ih : IntelHex) (T : Nat) (events : List RecvEvent)
        (b : Nat),
      (start_update board T events).ok = true →
      (erase_sectors T (app_flash_sectors board.mcu.flash_sectors ih.minaddr
          (ih.minaddr + size_bytes ih)) (start_update board T events).rest).outcome
        = .ok true →
      (status T (program ih (erase_sectors T (app_flash_sectors
          board.mcu.flash_sectors ih.minaddr (ih.minaddr + size_bytes ih))
          (start_update board T events).rest).rest).rest).result = some b →
      (update board ih T events).result
        = (if b = BOOT_STATUS_APP_VALID then none
           else some UpdateError.integrityFail)) ∧
    (∀ (board : Board) (ih : IntelHex) (T : Nat) (events : List RecvEvent),
      (start_update board T events).ok = true →
      (erase_sectors T (app_flash_sectors board.mcu.flash_sectors ih.minaddr
          (ih.minaddr + size_bytes ih)) (start_update board T events).rest).outcome
        = .ok true →
      (status T (program ih (erase_sectors T (app_flash_sectors
          board.mcu.flash_sectors ih.minaddr (ih.minaddr + size_bytes ih))
          (start_update board T events).rest).rest).rest).result = none →
      (update board ih T events).result = some UpdateError.verifyNoResponse) ∧
    (∀ (board : Board) (T : Nat) (events : List RecvEvent) (b : Nat),
      (start_update board T events).ok = true →
      (erase_sectors T
          (board.mcu.flash_sectors.filter (fun sec => !sec.write_protect))
          (start_update board T events).rest).outcome = .ok true →
      (status T (erase_sectors T
          (board.mcu.flash_sectors.filter (fun sec => !sec.write_protect))
          (start_update board T events).rest).rest).result = some b →
      (erase board T events).result
        = (if b = BOOT_STATUS_NO_APP then none
           else some EraseOpError.verifyFail)) ∧
    (∀ (board : Board) (T : Nat) (events : List RecvEvent),
      (start_update board T events).ok = true →
      (erase_sectors T
          (board.mcu.flash_sectors.filter (fun sec => !sec.write_protect))
          (start_update board T events).rest).outcome = .ok true →
      (status T (erase_sectors T
          (board.mcu.flash_sectors.filter (fun sec => !sec.write_protect))
          (start_update board T events).rest).rest).result = none →
      (erase board T events).result = some EraseOpError.verifyNoResponse) ∧
    (UpdateError.verifyNoResponse ≠ UpdateError.integrityFail ∧
      EraseOpError.verifyNoResponse ≠ EraseOpError.verifyFail) := by
  refine ⟨?_, ?_, ?_, ?_, ?_, ?_, by decide, by decide⟩
  · intro t pre dt f rest h hT hid
    have hv : status_validator f = some true := by simp [status_validator, hid]
    have hskip := await_go_skip status_validator AWAIT_TIMEOUT_DEFAULT pre 0
      ((dt, some f) :: rest) h (by omega)
    simp only [status, await_can_msg]
    rw [hskip]
    simp [await_can_msg_go, hT, hv]
  · intro t events h
    have htm := await_go_timeout status_validator AWAIT_TIMEOUT_DEFAULT events 0 h
    simp only [status, await_can_msg]
    simp only [await_can_msg] at htm
    rw [htm]
  · intro board ih T events b h1 h2 h3
    by_cases hb : b = BOOT_STATUS_APP_VALID <;>
      simp [update, h1, h2, h3, hb]
  · intro board ih T events h1 h2 h3
    simp [update, h1, h2, h3]
  · intro board T events b h1 h2 h3
    by_cases hb : b = BOOT_STATUS_NO_APP <;>
      simp [erase, h1, h2, h3, hb]
  · intro board T events h1 h2 h3
    simp [erase, h1, h2, h3]

/-- C6 witness: a foreign frame then an app-validity frame with byte 2
make `status` return 2; a stream with no app-validity frame makes it
return `none`; a full session where verify reports byte 0 makes `update`
succeed, and one with no verify reply fails unresponsive; an erase
session where verify reports byte 2 succeeds, and one with no reply fails
unresponsive. -/
theorem status_and_verify_mapping_witness :
    (status 7 [(0, some ⟨9, []⟩),
        (0, some ⟨APP_VALIDITY_CAN_ID, [BOOT_STATUS_NO_APP]⟩)]).result
      = some 2 ∧
    (status 3 [(1, some ⟨9, []⟩)]).result = none ∧
    (update board0 ihE 5
        [(0, some ⟨1201, []⟩), (1, none), (0, some ⟨1011, [0]⟩)]).result
      = none ∧
    (update board0 ihE 5 [(0, some ⟨1201, []⟩)]).result
      = some UpdateError.verifyNoResponse ∧
    (erase board0 5 [(0, some ⟨1201, []⟩), (0, some ⟨1011, [2]⟩)]).result
      = none ∧
    (erase board0 5 [(0, some ⟨1201, []⟩)]).result
      = some EraseOpError.verifyNoResponse :=
  ⟨status_and_verify_mapping.1 7 [(0, some ⟨9, []⟩)] 0
      ⟨APP_VALIDITY_CAN_ID, [BOOT_STATUS_NO_APP]⟩ []
      (by decide) (by decide) (by decide),
   status_and_verify_mapping.2.1 3 [(1, some ⟨9, []⟩)] (by decide),
   status_and_verify_mapping.2.2.1 board0 ihE 5
      [(0, some ⟨1201, []⟩), (1, none), (0, some ⟨1011, [0]⟩)] 0
      (by decide) (by decide) (by decide),
   status_and_verify_mapping.2.2.2.1 board0 ihE 5 [(0, some ⟨1201, []⟩)]
      (by decide) (by decide) (by decide),
   status_and_verify_mapping.2.2.2.2.1 board0 5
      [(0, some ⟨1201, []⟩), (0, some ⟨1011, [2]⟩)] 2
      (by decide) (by decide) (by decide),
   status_and_verify_mapping.2.2.2.2.2.1 board0 5 [(0, some ⟨1201, []⟩)]
      (by decide) (by decide) (by decide)⟩

end Canup
